import Mathlib

/-!
Shallow embedding of the Geometry_Collision rigid-body code.

Scalars: the C++ code computes with `double`; the embedding idealizes this as
exact arithmetic.  The rigid-body layer (`RigidSphere.cpp`, `RigidPlane.h`,
`Hypersphere.h`) is embedded over `ℚ`; the generic `gte::GVector<Real>`
template is embedded parametrically over a linear ordered field, instantiated
at `ℚ` where no square root occurs and at `ℝ` (with `Real.sqrt` standing for
`std::sqrt`) for `Length`/`Normalize`.

Code of the repository that is referenced but not present among the sources
(`RigidBody.h`, `RigidPlane.cpp`, `Vector.h`, `Mathematics/Math.h`) is
modelled from the specification; each such definition carries a doc comment
starting with `Modelled from the spec:`.
-/

namespace GeometryCollision

/-- Fixed-size 3-vector of scalars (`Vector_GM::Vector3<double>` from
`Vector.h`, whose header is not among the sources; the component container
is forced by `Hypersphere.h` and `RigidPlane.h` usage). -/
structure Vector3 where
  x : ℚ
  y : ℚ
  z : ℚ
deriving DecidableEq

/-- Modelled from the spec: the dot product `n̂·p` used by the signed-distance
formula; `Vector_GM`'s `Dot` lives in `Vector.h`, which is not among the
sources. -/
def Dot3 (u v : Vector3) : ℚ :=
  u.x * v.x + u.y * v.y + u.z * v.z

/-- Concrete 3x3 matrix of scalars (`Matrix3x3<double>`; the matrix header is
not among the sources, but `RigidSphere.cpp` uses only `Identity()` and
scalar multiplication). -/
structure Matrix3x3 where
  m00 : ℚ
  m01 : ℚ
  m02 : ℚ
  m10 : ℚ
  m11 : ℚ
  m12 : ℚ
  m20 : ℚ
  m21 : ℚ
  m22 : ℚ
deriving DecidableEq

/-- The 3x3 identity matrix (`Matrix3x3<double>::Identity()`). -/
def Matrix3x3.identity : Matrix3x3 :=
  ⟨1, 0, 0, 0, 1, 0, 0, 0, 1⟩

/-- The 3x3 zero matrix (`Matrix3x3<double>::Zero()`). -/
def Matrix3x3.zero : Matrix3x3 :=
  ⟨0, 0, 0, 0, 0, 0, 0, 0, 0⟩

/-- Scalar times matrix (`operator*(Real, Matrix3x3)`), componentwise. -/
def Matrix3x3.scale (s : ℚ) (M : Matrix3x3) : Matrix3x3 :=
  ⟨s * M.m00, s * M.m01, s * M.m02,
   s * M.m10, s * M.m11, s * M.m12,
   s * M.m20, s * M.m21, s * M.m22⟩

/-- Determinant of a 3x3 matrix by cofactor expansion. -/
def Matrix3x3.det (M : Matrix3x3) : ℚ :=
  M.m00 * (M.m11 * M.m22 - M.m12 * M.m21)
    - M.m01 * (M.m10 * M.m22 - M.m12 * M.m20)
    + M.m02 * (M.m10 * M.m21 - M.m11 * M.m20)

/-- Positive definiteness of a symmetric 3x3 matrix by Sylvester's criterion
(leading principal minors all positive). -/
def Matrix3x3.posDefCheck (M : Matrix3x3) : Prop :=
  0 < M.m00 ∧ 0 < M.m00 * M.m11 - M.m01 * M.m10 ∧ 0 < M.det

instance (M : Matrix3x3) : Decidable M.posDefCheck := by
  unfold Matrix3x3.posDefCheck; infer_instance

/-- The plane `n̂·p = d` stored as normal and constant
(`Vector_GM::Plane3<double>` as used by `RigidPlane.h`). -/
structure Plane3 where
  normal : Vector3
  constant : ℚ
deriving DecidableEq

/-- Sphere as center plus radius (`Vector_GM::Sphere3<double>` =
`Hypersphere<double,3>` from `Hypersphere.h`). -/
structure Sphere3 where
  center : Vector3
  radius : ℚ
deriving DecidableEq

/-- Modelled from the spec: the constant π used in the sphere volume
(`GTE_C_PI` from `Mathematics/Math.h`, which is not among the sources).
Embedded as the exact value of the Geometric Tools decimal literal
`3.1415926535897931`. -/
def GTE_C_PI : ℚ := 3.1415926535897931

/-- Modelled from the spec: the `RigidBody<double>` state, `RigidBody.h` not
being among the sources.  Per the spec the state is position `x`, orientation
quaternion `q`, linear momentum `P`, angular momentum `L`, with constants
mass `m` (cached together with `1/m`; an immovable body has `1/m = 0`) and
body inertia `J_body`, plus per-step force and torque accumulators. -/
structure RigidBody where
  mass : ℚ
  invMass : ℚ
  bodyInertia : Matrix3x3
  position : Vector3
  qw : ℚ
  qx : ℚ
  qy : ℚ
  qz : ℚ
  linearMomentum : Vector3
  angularMomentum : Vector3
  force : Vector3
  torque : Vector3
deriving DecidableEq

/-- Modelled from the spec: the value-initialized `RigidBody<double>{}` with
identity orientation and all other state zero. -/
def RigidBody.init : RigidBody :=
  { mass := 0, invMass := 0, bodyInertia := Matrix3x3.zero,
    position := ⟨0, 0, 0⟩, qw := 1, qx := 0, qy := 0, qz := 0,
    linearMomentum := ⟨0, 0, 0⟩, angularMomentum := ⟨0, 0, 0⟩,
    force := ⟨0, 0, 0⟩, torque := ⟨0, 0, 0⟩ }

/-- Modelled from the spec: `RigidBody::SetMass`.  Constructing with mass
`m ≤ 0` is a programming error that fails fast; a positive mass is stored
together with its inverse. -/
def SetMass (m : ℚ) (b : RigidBody) : Except String RigidBody :=
  if 0 < m then .ok { b with mass := m, invMass := 1 / m }
  else .error "Invalid mass."

/-- Modelled from the spec: `RigidBody::SetBodyInertia`.  A body inertia that
is not positive definite is a programming error that fails fast. -/
def SetBodyInertia (J : Matrix3x3) (b : RigidBody) : Except String RigidBody :=
  if J.posDefCheck then .ok { b with bodyInertia := J }
  else .error "Invalid body inertia."

/-- Modelled from the spec: `RigidBody::SetPosition` stores the world position
of the center of mass. -/
def SetPosition (p : Vector3) (b : RigidBody) : RigidBody :=
  { b with position := p }

/-- Modelled from the spec: `RigidBody::GetPosition` observer. -/
def GetPosition (b : RigidBody) : Vector3 :=
  b.position

/-- Modelled from the spec: `RigidBody::SetQOrientation` stores the
orientation quaternion. -/
def SetQOrientation (w xc yc zc : ℚ) (b : RigidBody) : RigidBody :=
  { b with qw := w, qx := xc, qy := yc, qz := zc }

/-- Modelled from the spec: `RigidBody::SetLinearMomentum`. -/
def SetLinearMomentum (v : Vector3) (b : RigidBody) : RigidBody :=
  { b with linearMomentum := v }

/-- Modelled from the spec: `RigidBody::SetAngularMomentum`. -/
def SetAngularMomentum (v : Vector3) (b : RigidBody) : RigidBody :=
  { b with angularMomentum := v }

/-- Modelled from the spec: the per-step force accumulator setter. -/
def SetForce (v : Vector3) (b : RigidBody) : RigidBody :=
  { b with force := v }

/-- Modelled from the spec: the per-step torque accumulator setter. -/
def SetTorque (v : Vector3) (b : RigidBody) : RigidBody :=
  { b with torque := v }

/-- A `RigidPlane` is a rigid body together with its stored world plane
`mPlane` (`RigidPlane.h`). -/
structure RigidPlane where
  body : RigidBody
  mPlane : Plane3
deriving DecidableEq

/-- Modelled from the spec: the `RigidPlane` constructor (`RigidPlane.cpp` is
not among the sources).  It stores the given plane and makes the body
degenerate and immovable: `1/m = 0` and zero body inertia, per the spec. -/
def RigidPlane.make (plane : Plane3) : RigidPlane :=
  let b := RigidBody.init
  { body := { b with mass := 0, invMass := 0, bodyInertia := Matrix3x3.zero },
    mPlane := plane }

/-- The `RigidPlane::GetPlane` observer (`RigidPlane.h`). -/
def GetPlane (rp : RigidPlane) : Plane3 :=
  rp.mPlane

/-- The `RigidPlane::GetSignedDistance` const member from `RigidPlane.h`:
`Dot(mPlane.normal, point) - mPlane.constant`.  The result is returned
together with the post-call object state, which a const member leaves
untouched. -/
def GetSignedDistanceRun (rp : RigidPlane) (point : Vector3) : ℚ × RigidPlane :=
  (Dot3 rp.mPlane.normal point - rp.mPlane.constant, rp)

/-- Operations a driver can apply to a body: the inherited `RigidBody`
setters, plus one integrator step.  Used to quantify over arbitrary
operation sequences. -/
inductive BodyOp where
  | setMass (m : ℚ)
  | setBodyInertia (J : Matrix3x3)
  | setPosition (p : Vector3)
  | setQOrientation (w xc yc zc : ℚ)
  | setLinearMomentum (v : Vector3)
  | setAngularMomentum (v : Vector3)
  | setForce (v : Vector3)
  | setTorque (v : Vector3)
  | integrate (dt : ℚ)

/-- Application of one operation to a `RigidPlane`.  The inherited setters
act on the embedded `RigidBody` subobject only; per the spec the integrator
skips planes and immovable bodies entirely. -/
def RigidPlane.applyOp (op : BodyOp) (rp : RigidPlane) : Except String RigidPlane :=
  match op with
  | .setMass m =>
      match SetMass m rp.body with
      | .error e => .error e
      | .ok b => .ok { rp with body := b }
  | .setBodyInertia J =>
      match SetBodyInertia J rp.body with
      | .error e => .error e
      | .ok b => .ok { rp with body := b }
  | .setPosition p => .ok { rp with body := SetPosition p rp.body }
  | .setQOrientation w xc yc zc =>
      .ok { rp with body := SetQOrientation w xc yc zc rp.body }
  | .setLinearMomentum v => .ok { rp with body := SetLinearMomentum v rp.body }
  | .setAngularMomentum v => .ok { rp with body := SetAngularMomentum v rp.body }
  | .setForce v => .ok { rp with body := SetForce v rp.body }
  | .setTorque v => .ok { rp with body := SetTorque v rp.body }
  | .integrate _ => .ok rp

/-- Application of a sequence of operations to a `RigidPlane`, aborting on
the first failure. -/
def RigidPlane.runOps : List BodyOp → RigidPlane → Except String RigidPlane
  | [], rp => .ok rp
  | op :: ops, rp =>
      match RigidPlane.applyOp op rp with
      | .error e => .error e
      | .ok rp1 => RigidPlane.runOps ops rp1

/-- A `RigidSphere` is a rigid body together with its world sphere
`mWorldSphere` (`Rigidsphere.h`). -/
structure RigidSphere where
  body : RigidBody
  mWorldSphere : Sphere3
deriving DecidableEq

/-- `RigidSphere::UpdateWorldQuantities` from `RigidSphere.cpp`:
`mWorldSphere.center = GetPosition();`. -/
def RigidSphere.updateWorldQuantities (rs : RigidSphere) : RigidSphere :=
  { rs with mWorldSphere := { rs.mWorldSphere with center := GetPosition rs.body } }

/-- The inherited `SetPosition` applied to a `RigidSphere`: it acts on the
`RigidBody` subobject and does not touch `mWorldSphere`. -/
def RigidSphere.setPosition (p : Vector3) (rs : RigidSphere) : RigidSphere :=
  { rs with body := SetPosition p rs.body }

/-- The `RigidSphere::GetRadius` observer (`Rigidsphere.h`). -/
def RigidSphere.getRadius (rs : RigidSphere) : ℚ :=
  rs.mWorldSphere.radius

/-- The `RigidSphere` constructor from `RigidSphere.cpp`: initializes
`mWorldSphere` to center zero and the given radius, computes
`volume = 4 π r³ / 3` and `mass = massDensity * volume`, sets
`bodyInertia = massDensity * Identity()`, then calls `SetMass`,
`SetBodyInertia`, `SetPosition(sphere.center)` and
`UpdateWorldQuantities()` in that order. -/
def RigidSphere.make (sphere : Sphere3) (massDensity : ℚ) : Except String RigidSphere :=
  let rCubed := sphere.radius * sphere.radius * sphere.radius
  let volume := 4 * GTE_C_PI * rCubed / 3
  let mass := massDensity * volume
  let bodyInertia := Matrix3x3.scale massDensity Matrix3x3.identity
  match SetMass mass RigidBody.init with
  | .error e => .error e
  | .ok b1 =>
      match SetBodyInertia bodyInertia b1 with
      | .error e => .error e
      | .ok b2 =>
          let b3 := SetPosition sphere.center b2
          .ok (RigidSphere.updateWorldQuantities
            { body := b3, mWorldSphere := ⟨⟨0, 0, 0⟩, sphere.radius⟩ })

/-!
Embedding of the generic `gte::GVector<Real>` operations from
`Mathematics/GVector.h`.  A `GVector` is its tuple of components, modelled
as a `List α` over a linear ordered field `α`; the template parameter
`Real` becomes the type parameter.  `LogError` throws, modelled as
`Except.error` carrying the logged message.  The robust branches of
`Length` and `Normalize` read `v[0]` unconditionally; on a size-0 tuple
that read is out of bounds and yields an indeterminate value, modelled by
an explicit `junk : α` parameter that the embedding quantifies over
rather than fixing.
-/

section GVec

variable {α : Type} [LinearOrderedField α]

/-- `GVector::MakeUnit(int32_t d)`: fill the tuple with zeros, then set
component `d` to one when `0 <= d && d < size`. -/
def MakeUnit (v : List α) (d : ℤ) : List α :=
  let z := v.map (fun _ => (0 : α))
  if 0 ≤ d ∧ d < (z.length : ℤ) then z.set d.toNat 1 else z

/-- `operator+=(GVector, GVector)`: on equal sizes the componentwise sum;
otherwise `LogError("Mismatched sizes.")` fires before the loop body ever
runs, so the error carries `v0` in its original state. -/
def addAssignRun (v0 v1 : List α) : Except (String × List α) (List α) :=
  if v0.length = v1.length then .ok (List.zipWith (· + ·) v0 v1)
  else .error ("Mismatched sizes.", v0)

/-- `Dot(GVector, GVector)`: the sum of componentwise products on equal
sizes, `LogError("Mismatched sizes.")` otherwise. -/
def DotE (v0 v1 : List α) : Except String α :=
  if v0.length = v1.length then .ok (List.zipWith (· * ·) v0 v1).sum
  else .error "Mismatched sizes."

/-- The value `Dot(v, v)` computes on the equal-size path. -/
def dotSelf (v : List α) : α :=
  (List.zipWith (· * ·) v v).sum

/-- `operator/=(GVector, Real)`: when the scalar is nonzero, multiply every
component by its inverse; otherwise `LogError("Division by zero.")`. -/
def divAssignE (v : List α) (scalar : α) : Except String (List α) :=
  if scalar ≠ 0 then .ok (v.map (fun x => x * (1 / scalar)))
  else .error "Division by zero."

/-- One step of the running maximum of absolute component values. -/
def maxAbsStep (m a : α) : α :=
  if |a| > m then |a| else m

/-- The `maxAbsComp` loop shared by the robust branches of `Length` and
`Normalize`: start from `fabs(v[0])` and fold the remaining components.
On a size-0 tuple the `v[0]` read is out of bounds; `junk` is the
indeterminate value that read yields. -/
def maxAbsComp (junk : α) (v : List α) : α :=
  match v with
  | [] => |junk|
  | a :: rest => rest.foldl maxAbsStep |a|

/-- `Length(GVector, bool robust)` with `sqrtF` standing for `std::sqrt` and
`junk` for the indeterminate value of the out-of-bounds `v[0]` read on a
size-0 tuple. -/
def LengthE (sqrtF : α → α) (junk : α) (v : List α) (robust : Bool) :
    Except String α :=
  if robust then
    let m := maxAbsComp junk v
    if m > 0 then
      match divAssignE v m with
      | .error e => .error e
      | .ok scaled =>
          match DotE scaled scaled with
          | .error e => .error e
          | .ok dot => .ok (m * sqrtF dot)
    else .ok 0
  else
    match DotE v v with
    | .error e => .error e
    | .ok dot => .ok (sqrtF dot)

/-- `Normalize(GVector, bool robust)` with `sqrtF` standing for `std::sqrt`
and `junk` for the indeterminate value of the out-of-bounds `v[0]` read on
a size-0 tuple.  Returns the computed length together with the post-call
vector. -/
def NormalizeE (sqrtF : α → α) (junk : α) (v : List α) (robust : Bool) :
    Except String (α × List α) :=
  if robust then
    let m := maxAbsComp junk v
    if m > 0 then
      match divAssignE v m with
      | .error e => .error e
      | .ok v1 =>
          match DotE v1 v1 with
          | .error e => .error e
          | .ok dot =>
              let len := sqrtF dot
              match divAssignE v1 len with
              | .error e => .error e
              | .ok v2 => .ok (len * m, v2)
    else .ok (0, v.map (fun _ => (0 : α)))
  else
    match DotE v v with
    | .error e => .error e
    | .ok dot =>
        let len := sqrtF dot
        if len > 0 then
          match divAssignE v len with
          | .error e => .error e
          | .ok v1 => .ok (len, v1)
        else .ok (len, v.map (fun _ => (0 : α)))

end GVec

/-! ## Helper lemmas -/

theorem setMass_ok {m : ℚ} {b b1 : RigidBody} (h : SetMass m b = .ok b1) :
    b1 = { b with mass := m, invMass := 1 / m } := by
  unfold SetMass at h
  split_ifs at h
  exact (Except.ok.inj h).symm

theorem setMass_err {m : ℚ} {b : RigidBody} (h : m ≤ 0) :
    SetMass m b = .error "Invalid mass." := by
  unfold SetMass
  rw [if_neg (not_lt.mpr h)]

theorem setBodyInertia_ok {J : Matrix3x3} {b b1 : RigidBody}
    (h : SetBodyInertia J b = .ok b1) : b1 = { b with bodyInertia := J } := by
  unfold SetBodyInertia at h
  split_ifs at h
  exact (Except.ok.inj h).symm

theorem make_ok_body {sph : Sphere3} {ρ : ℚ} {b : RigidSphere}
    (h : RigidSphere.make sph ρ = .ok b) :
    b.body.mass = ρ * (4 * GTE_C_PI * (sph.radius * sph.radius * sph.radius) / 3)
      ∧ b.body.bodyInertia = Matrix3x3.scale ρ Matrix3x3.identity
      ∧ b.mWorldSphere.radius = sph.radius := by
  simp only [RigidSphere.make] at h
  split at h
  case h_1 => exact absurd h (by simp)
  case h_2 b1 hb1 =>
    split at h
    case h_1 => exact absurd h (by simp)
    case h_2 b2 hb2 =>
      have hb : b = RigidSphere.updateWorldQuantities
          { body := SetPosition sph.center b2,
            mWorldSphere := ⟨⟨0, 0, 0⟩, sph.radius⟩ } := (Except.ok.inj h).symm
      have h1 := setMass_ok hb1
      have h2 := setBodyInertia_ok hb2
      subst hb h1 h2
      simp [RigidSphere.updateWorldQuantities, SetPosition, GetPosition]

theorem make_eval (sph : Sphere3) (ρ : ℚ)
    (hm : 0 < ρ * (4 * GTE_C_PI * (sph.radius * sph.radius * sph.radius) / 3))
    (hJ : (Matrix3x3.scale ρ Matrix3x3.identity).posDefCheck) :
    RigidSphere.make sph ρ = .ok
      { body :=
          { mass := ρ * (4 * GTE_C_PI * (sph.radius * sph.radius * sph.radius) / 3),
            invMass :=
              1 / (ρ * (4 * GTE_C_PI * (sph.radius * sph.radius * sph.radius) / 3)),
            bodyInertia := Matrix3x3.scale ρ Matrix3x3.identity,
            position := sph.center, qw := 1, qx := 0, qy := 0, qz := 0,
            linearMomentum := ⟨0, 0, 0⟩, angularMomentum := ⟨0, 0, 0⟩,
            force := ⟨0, 0, 0⟩, torque := ⟨0, 0, 0⟩ },
        mWorldSphere := ⟨sph.center, sph.radius⟩ } := by
  simp only [RigidSphere.make, SetMass, SetBodyInertia, if_pos hm, if_pos hJ,
    SetPosition, RigidSphere.updateWorldQuantities, GetPosition, RigidBody.init]

theorem applyOp_mPlane {op : BodyOp} {rp rp1 : RigidPlane}
    (h : RigidPlane.applyOp op rp = .ok rp1) : rp1.mPlane = rp.mPlane := by
  cases op with
  | setMass m =>
      simp only [RigidPlane.applyOp] at h
      split at h
      · exact absurd h (by simp)
      · cases Except.ok.inj h; rfl
  | setBodyInertia J =>
      simp only [RigidPlane.applyOp] at h
      split at h
      · exact absurd h (by simp)
      · cases Except.ok.inj h; rfl
  | setPosition p =>
      simp only [RigidPlane.applyOp] at h; cases Except.ok.inj h; rfl
  | setQOrientation w xc yc zc =>
      simp only [RigidPlane.applyOp] at h; cases Except.ok.inj h; rfl
  | setLinearMomentum v =>
      simp only [RigidPlane.applyOp] at h; cases Except.ok.inj h; rfl
  | setAngularMomentum v =>
      simp only [RigidPlane.applyOp] at h; cases Except.ok.inj h; rfl
  | setForce v =>
      simp only [RigidPlane.applyOp] at h; cases Except.ok.inj h; rfl
  | setTorque v =>
      simp only [RigidPlane.applyOp] at h; cases Except.ok.inj h; rfl
  | integrate dt =>
      simp only [RigidPlane.applyOp] at h; cases Except.ok.inj h; rfl

theorem runOps_mPlane {ops : List BodyOp} {rp rp1 : RigidPlane}
    (h : RigidPlane.runOps ops rp = .ok rp1) : rp1.mPlane = rp.mPlane := by
  induction ops generalizing rp with
  | nil => cases Except.ok.inj h; rfl
  | cons op ops ih =>
    unfold RigidPlane.runOps at h
    split at h
    case h_1 => exact absurd h (by simp)
    case h_2 rpMid hMid => exact (ih h).trans (applyOp_mPlane hMid)

/-! ## Claim theorems -/

/-- C1 (code bug): the spec requires the body inertia of a solid sphere of
density ρ and radius r to be `(2/5) m r² · I` with `m = ρ·(4/3)πr³`, but the
constructor in `RigidSphere.cpp` stores `massDensity * Identity()`.  At the
concrete input radius 1, density 1 the stored inertia is the identity matrix,
which differs from the spec value `(2/5)·(4π/3)·I`. -/
theorem rigid_sphere_inertia_divergence :
    (RigidSphere.make ⟨⟨0, 0, 0⟩, 1⟩ 1).toOption.map (fun b => b.body.bodyInertia)
        = some (Matrix3x3.scale 1 Matrix3x3.identity)
      ∧ Matrix3x3.scale 1 Matrix3x3.identity
          ≠ Matrix3x3.scale
              (2 / 5 * (1 * (4 * GTE_C_PI * (1 * 1 * 1) / 3)) * (1 * 1))
              Matrix3x3.identity := by
  constructor
  · rw [make_eval ⟨⟨0, 0, 0⟩, 1⟩ 1 (by norm_num [GTE_C_PI])
      (by norm_num [Matrix3x3.posDefCheck, Matrix3x3.scale, Matrix3x3.identity,
        Matrix3x3.det])]
    rfl
  · intro heq
    have h00 := congrArg Matrix3x3.m00 heq
    simp only [Matrix3x3.scale, Matrix3x3.identity] at h00
    norm_num [GTE_C_PI] at h00

/-- C2: for every successfully constructed `RigidSphere`, the mass stored at
construction equals density times the volume `(4/3)πr³` of the solid sphere
of the given radius. -/
theorem rigid_sphere_mass_formula (sph : Sphere3) (ρ : ℚ) (b : RigidSphere)
    (h : RigidSphere.make sph ρ = .ok b) :
    b.body.mass = ρ * (4 / 3 * GTE_C_PI * sph.radius ^ 3) := by
  rw [(make_ok_body h).1]
  ring

/-- C2 witness: constructing from the unit sphere with density 1 succeeds and
stores mass `(4/3)π·1³`. -/
theorem rigid_sphere_mass_formula_witness :
    (RigidSphere.make ⟨⟨0, 0, 0⟩, 1⟩ 1).toOption.map (fun b => b.body.mass)
      = some (1 * (4 / 3 * GTE_C_PI * (1 : ℚ) ^ 3)) := by
  have hmk := make_eval ⟨⟨0, 0, 0⟩, 1⟩ 1 (by norm_num [GTE_C_PI])
    (by norm_num [Matrix3x3.posDefCheck, Matrix3x3.scale, Matrix3x3.identity,
      Matrix3x3.det])
  have h := rigid_sphere_mass_formula ⟨⟨0, 0, 0⟩, 1⟩ 1 _ hmk
  rw [hmk]
  exact congrArg some h

/-- C3: a plane stores its defining plane at construction and no sequence of
operations (inherited setters or integration steps) that completes
successfully ever changes what `GetPlane` returns. -/
theorem rigid_plane_immutable (plane : Plane3) (ops : List BodyOp)
    (rp1 : RigidPlane)
    (h : RigidPlane.runOps ops (RigidPlane.make plane) = .ok rp1) :
    GetPlane rp1 = plane :=
  (runOps_mPlane h).trans rfl

/-- C3 witness: a concrete operation sequence on a concrete plane completes
and leaves `GetPlane` at the construction-time plane. -/
theorem rigid_plane_immutable_witness :
    (RigidPlane.runOps
        [BodyOp.setPosition ⟨1, 2, 3⟩, BodyOp.setMass 2,
         BodyOp.setLinearMomentum ⟨4, 5, 6⟩, BodyOp.integrate (1 / 120)]
        (RigidPlane.make ⟨⟨0, 1, 0⟩, 0⟩)).toOption.map GetPlane
      = some ⟨⟨0, 1, 0⟩, 0⟩ := by
  have hrun : RigidPlane.runOps
      [BodyOp.setPosition ⟨1, 2, 3⟩, BodyOp.setMass 2,
       BodyOp.setLinearMomentum ⟨4, 5, 6⟩, BodyOp.integrate (1 / 120)]
      (RigidPlane.make ⟨⟨0, 1, 0⟩, 0⟩) = .ok
        { body := { mass := 2, invMass := 1 / 2, bodyInertia := Matrix3x3.zero,
                    position := ⟨1, 2, 3⟩, qw := 1, qx := 0, qy := 0, qz := 0,
                    linearMomentum := ⟨4, 5, 6⟩, angularMomentum := ⟨0, 0, 0⟩,
                    force := ⟨0, 0, 0⟩, torque := ⟨0, 0, 0⟩ },
          mPlane := ⟨⟨0, 1, 0⟩, 0⟩ } := by
    norm_num [RigidPlane.runOps, RigidPlane.applyOp, RigidPlane.make,
      RigidBody.init, SetMass, SetPosition, SetLinearMomentum]
  rw [hrun]
  exact congrArg some (rigid_plane_immutable ⟨⟨0, 1, 0⟩, 0⟩ _ _ hrun)

/-- C4: after `UpdateWorldQuantities()` the world sphere center equals
`GetPosition()` and the radius is whatever it was before; `SetPosition`
leaves the whole world sphere untouched; and a successful construction
stores the construction radius in the world sphere. -/
theorem rigid_sphere_world_tracking (rs : RigidSphere) (p : Vector3)
    (sph : Sphere3) (ρ : ℚ) (b : RigidSphere) :
    (rs.updateWorldQuantities.mWorldSphere.center = GetPosition rs.body
        ∧ rs.updateWorldQuantities.mWorldSphere.radius = rs.mWorldSphere.radius)
      ∧ (RigidSphere.setPosition p rs).mWorldSphere = rs.mWorldSphere
      ∧ (RigidSphere.make sph ρ = .ok b → b.mWorldSphere.radius = sph.radius) := by
  refine ⟨⟨rfl, rfl⟩, rfl, fun h => (make_ok_body h).2.2⟩

/-- C4 witness: a concrete construction stores radius 2, and updating world
quantities after moving the body tracks the new position with the same
radius. -/
theorem rigid_sphere_world_tracking_witness :
    (RigidSphere.make ⟨⟨1, 2, 3⟩, 2⟩ 1).toOption.map RigidSphere.getRadius
      = some 2 := by
  have hmk := make_eval ⟨⟨1, 2, 3⟩, 2⟩ 1 (by norm_num [GTE_C_PI])
    (by norm_num [Matrix3x3.posDefCheck, Matrix3x3.scale, Matrix3x3.identity,
      Matrix3x3.det])
  have h := (rigid_sphere_world_tracking ⟨RigidBody.init, ⟨⟨0, 0, 0⟩, 0⟩⟩
    ⟨0, 0, 0⟩ ⟨⟨1, 2, 3⟩, 2⟩ 1 _).2.2 hmk
  rw [hmk]
  exact congrArg some h

/-- C5: `GetSignedDistance(p)` returns the dot product of the stored normal
with the point minus the stored constant, and being a const member it leaves
the plane object unchanged. -/
theorem rigid_plane_signed_distance (rp : RigidPlane) (p : Vector3) :
    GetSignedDistanceRun rp p =
      (rp.mPlane.normal.x * p.x + rp.mPlane.normal.y * p.y
        + rp.mPlane.normal.z * p.z - rp.mPlane.constant, rp) :=
  rfl

/-- C6: when the construction inputs give a non-positive mass
`ρ·(4/3)πr³ ≤ 0`, the `RigidSphere` constructor fails fast in `SetMass`
instead of producing a body. -/
theorem rigid_sphere_nonpositive_mass_fails (sph : Sphere3) (ρ : ℚ)
    (h : ρ * (4 * GTE_C_PI * (sph.radius * sph.radius * sph.radius) / 3) ≤ 0) :
    RigidSphere.make sph ρ = .error "Invalid mass." := by
  simp only [RigidSphere.make]
  rw [setMass_err h]

/-- C6 witness: density 0 on the unit sphere gives mass 0 and the
construction fails. -/
theorem rigid_sphere_nonpositive_mass_fails_witness :
    RigidSphere.make ⟨⟨0, 0, 0⟩, 1⟩ 0 = .error "Invalid mass." :=
  rigid_sphere_nonpositive_mass_fails ⟨⟨0, 0, 0⟩, 1⟩ 0 (by norm_num)

/-- C7: setting a body position and reading it back returns exactly the set
value. -/
theorem rigid_body_set_get_position (b : RigidBody) (p : Vector3) :
    GetPosition (SetPosition p b) = p :=
  rfl

/-! ## GVector helper lemmas -/

section GVecLemmas

variable {α : Type} [LinearOrderedField α]

theorem zipWith_mul_self (v : List α) :
    List.zipWith (· * ·) v v = v.map (fun x => x * x) := by
  induction v with
  | nil => rfl
  | cons a rest ih => simp [List.zipWith, ih]

theorem sum_map_sq_nonneg (v : List α) : 0 ≤ (v.map (fun x => x * x)).sum := by
  induction v with
  | nil => simp
  | cons a rest ih =>
      simp only [List.map_cons, List.sum_cons]
      exact add_nonneg (mul_self_nonneg a) ih

theorem dotSelf_nonneg (v : List α) : 0 ≤ dotSelf v := by
  unfold dotSelf
  rw [zipWith_mul_self]
  exact sum_map_sq_nonneg v

theorem sq_le_dotSelf {v : List α} {x : α} (hx : x ∈ v) : x * x ≤ dotSelf v := by
  unfold dotSelf
  rw [zipWith_mul_self]
  induction v with
  | nil => cases hx
  | cons a rest ih =>
      simp only [List.map_cons, List.sum_cons]
      rcases List.mem_cons.mp hx with h | h
      · subst h
        exact le_add_of_nonneg_right (sum_map_sq_nonneg rest)
      · exact (ih h).trans (le_add_of_nonneg_left (mul_self_nonneg a))

theorem dotSelf_eq_zero {v : List α} (h : dotSelf v = 0) : ∀ x ∈ v, x = 0 := by
  intro x hx
  have h1 : x * x ≤ 0 := h ▸ sq_le_dotSelf hx
  have h2 : x * x = 0 := le_antisymm h1 (mul_self_nonneg x)
  exact mul_self_eq_zero.mp h2

theorem foldl_maxAbsStep_cases (xs : List α) (m : α) :
    xs.foldl maxAbsStep m = m ∨ ∃ a ∈ xs, xs.foldl maxAbsStep m = |a| := by
  induction xs generalizing m with
  | nil => exact Or.inl rfl
  | cons a rest ih =>
      simp only [List.foldl_cons]
      rcases ih (maxAbsStep m a) with h | h
      · rw [h]
        unfold maxAbsStep
        split_ifs with hc
        · exact Or.inr ⟨a, List.mem_cons_self a rest, rfl⟩
        · exact Or.inl rfl
      · obtain ⟨b, hb, heq⟩ := h
        exact Or.inr ⟨b, List.mem_cons_of_mem a hb, heq⟩

theorem maxAbsComp_attained (junk : α) {v : List α} (hv : v ≠ []) :
    ∃ a ∈ v, maxAbsComp junk v = |a| := by
  cases v with
  | nil => exact absurd rfl hv
  | cons a rest =>
      rcases foldl_maxAbsStep_cases rest |a| with hc | hc
      · exact ⟨a, List.mem_cons_self a rest, hc⟩
      · obtain ⟨b, hb, heq⟩ := hc
        exact ⟨b, List.mem_cons_of_mem a hb, heq⟩

theorem foldl_maxAbsStep_zero {xs : List α} (h : ∀ x ∈ xs, x = 0) :
    xs.foldl maxAbsStep 0 = 0 := by
  induction xs with
  | nil => rfl
  | cons a rest ih =>
      have ha : a = 0 := h a (List.mem_cons_self a rest)
      subst ha
      simp only [List.foldl_cons]
      have hstep : maxAbsStep (0 : α) 0 = 0 := by simp [maxAbsStep]
      rw [hstep]
      exact ih (fun x hx => h x (List.mem_cons_of_mem 0 hx))

theorem maxAbsComp_of_allzero {junk : α} {v : List α} (hv : v ≠ [])
    (h : ∀ x ∈ v, x = 0) : maxAbsComp junk v = 0 := by
  cases v with
  | nil => exact absurd rfl hv
  | cons a rest =>
      have ha : a = 0 := h a (List.mem_cons_self a rest)
      subst ha
      show rest.foldl maxAbsStep |(0 : α)| = 0
      rw [abs_zero]
      exact foldl_maxAbsStep_zero (fun x hx => h x (List.mem_cons_of_mem 0 hx))

theorem DotE_self (v : List α) : DotE v v = .ok (dotSelf v) := by
  simp [DotE, dotSelf]

theorem divAssignE_of_ne {s : α} (v : List α) (hs : s ≠ 0) :
    divAssignE v s = .ok (v.map (fun x => x * (1 / s))) := by
  simp [divAssignE, hs]

omit [LinearOrderedField α] in
theorem getD_set_self (l : List α) (j : ℕ) (a x : α) (h : j < l.length) :
    (l.set j a).getD j x = a := by
  induction l generalizing j with
  | nil => cases h
  | cons b rest ih =>
      cases j with
      | zero => rfl
      | succ j => exact ih j (Nat.lt_of_succ_lt_succ h)

omit [LinearOrderedField α] in
theorem getD_set_ne (l : List α) (i j : ℕ) (a x : α) (h : i ≠ j) :
    (l.set j a).getD i x = l.getD i x := by
  induction l generalizing i j with
  | nil => rfl
  | cons b rest ih =>
      cases j with
      | zero =>
          cases i with
          | zero => exact absurd rfl h
          | succ i => rfl
      | succ j =>
          cases i with
          | zero => rfl
          | succ i => exact ih i j (fun he => h (by rw [he]))

theorem getD_map_zero (v : List α) (i : ℕ) :
    (v.map (fun _ => (0 : α))).getD i 0 = 0 := by
  induction v generalizing i with
  | nil => rfl
  | cons a rest ih =>
      cases i with
      | zero => rfl
      | succ i => exact ih i

theorem exists_ok_of_isOk {ε β : Type} {e : Except ε β} (h : e.isOk = true) :
    ∃ r, e = .ok r := by
  cases e with
  | error a => simp [Except.isOk, Except.toBool] at h
  | ok r => exact ⟨r, rfl⟩

theorem getD_zipWith_add (v0 v1 : List α) (i : ℕ)
    (h0 : i < v0.length) (h1 : i < v1.length) :
    (List.zipWith (· + ·) v0 v1).getD i 0 = v0.getD i 0 + v1.getD i 0 := by
  induction v0 generalizing v1 i with
  | nil => cases h0
  | cons a rest ih =>
      cases v1 with
      | nil => cases h1
      | cons b rest1 =>
          cases i with
          | zero => rfl
          | succ i =>
              exact ih rest1 i (Nat.lt_of_succ_lt_succ h0)
                (Nat.lt_of_succ_lt_succ h1)

end GVecLemmas

/-! ## GVector claim theorems -/

/-- C8 counterexample: the claim as stated fails on the empty vector.  The
empty vector has length zero (the non-robust `Length` returns 0), yet the
robust `Normalize` reads `v[0]` out of bounds and, when that indeterminate
read yields 1, divides by the zero length `sqrt(Dot(v,v)) = sqrt 0` and
hits the `operator/=` error `Division by zero.` instead of returning
length 0 with zeroed components. -/
theorem gvector_normalize_empty_divzero :
    LengthE Real.sqrt 1 ([] : List ℝ) false = Except.ok 0
      ∧ NormalizeE Real.sqrt 1 ([] : List ℝ) true
          = Except.error "Division by zero." := by
  constructor
  · norm_num [LengthE, DotE, dotSelf, Real.sqrt_zero]
  · norm_num [NormalizeE, maxAbsComp, divAssignE, DotE, Real.sqrt_zero]

/-- C8 (amended): in the non-robust mode `Normalize` is total on every
vector and never reaches the `operator/=` division-by-zero error, and on
every vector of length zero it returns length 0 and zeroes every
component; in the robust mode the same holds for every nonempty vector
(where the `v[0]` read is in bounds), for every value the indeterminate
read could yield. -/
theorem gvector_normalize_guarded (junk : ℝ) (v : List ℝ) :
    ((∃ result, NormalizeE Real.sqrt junk v false = Except.ok result) ∧
      (LengthE Real.sqrt junk v false = Except.ok 0 →
        NormalizeE Real.sqrt junk v false = Except.ok (0, v.map (fun _ => 0)))) ∧
    (v ≠ [] →
      (∃ result, NormalizeE Real.sqrt junk v true = Except.ok result) ∧
      (LengthE Real.sqrt junk v false = Except.ok 0 →
        NormalizeE Real.sqrt junk v true = Except.ok (0, v.map (fun _ => 0)))) := by
  have hzero : LengthE Real.sqrt junk v false = Except.ok 0 → ∀ x ∈ v, x = 0 := by
    intro hz
    simp only [LengthE, DotE_self] at hz
    have hz0 : Real.sqrt (dotSelf v) = 0 := Except.ok.inj hz
    have hd0 : dotSelf v = 0 :=
      le_antisymm (Real.sqrt_eq_zero'.mp hz0) (dotSelf_nonneg v)
    exact dotSelf_eq_zero hd0
  constructor
  · constructor
    · apply exists_ok_of_isOk
      by_cases hl : Real.sqrt (dotSelf v) > 0
      · have hne : Real.sqrt (dotSelf v) ≠ 0 := ne_of_gt hl
        simp [NormalizeE, DotE_self, divAssignE_of_ne _ hne, hl,
          Except.isOk, Except.toBool]
      · simp [NormalizeE, DotE_self, hl, Except.isOk, Except.toBool]
    · intro hz
      have hz0 : Real.sqrt (dotSelf v) = 0 := by
        simp only [LengthE, DotE_self] at hz
        exact Except.ok.inj hz
      have hnl : ¬ Real.sqrt (dotSelf v) > 0 := by rw [hz0]; exact lt_irrefl 0
      simp [NormalizeE, DotE_self, hnl, hz0]
  · intro hv
    constructor
    · apply exists_ok_of_isOk
      by_cases hm : maxAbsComp junk v > 0
      · have hm0 : maxAbsComp junk v ≠ 0 := ne_of_gt hm
        obtain ⟨b, hb, hbeq⟩ := maxAbsComp_attained junk hv
        have hmem : b * (maxAbsComp junk v)⁻¹ ∈
            v.map (fun x => x * (maxAbsComp junk v)⁻¹) :=
          List.mem_map_of_mem _ hb
        have habs : |b * (maxAbsComp junk v)⁻¹| = 1 := by
          rw [abs_mul, ← hbeq, abs_of_pos (inv_pos.mpr hm)]
          exact mul_inv_cancel₀ hm0
        have hsq : (b * (maxAbsComp junk v)⁻¹) * (b * (maxAbsComp junk v)⁻¹) = 1 := by
          rw [← abs_mul_abs_self, habs]
          norm_num
        have hdot : 0 < dotSelf (v.map (fun x => x * (maxAbsComp junk v)⁻¹)) := by
          have h1 := sq_le_dotSelf hmem
          rw [hsq] at h1
          exact lt_of_lt_of_le one_pos h1
        have hlen :
            Real.sqrt (dotSelf (v.map (fun x => x * (maxAbsComp junk v)⁻¹))) ≠ 0 :=
          ne_of_gt (Real.sqrt_pos.mpr hdot)
        simp [NormalizeE, hm, divAssignE_of_ne _ hm0, DotE_self,
          divAssignE_of_ne _ hlen, Except.isOk, Except.toBool]
      · simp [NormalizeE, hm, Except.isOk, Except.toBool]
    · intro hz
      have hmz : maxAbsComp junk v = 0 := maxAbsComp_of_allzero hv (hzero hz)
      have hnm : ¬ maxAbsComp junk v > 0 := by rw [hmz]; exact lt_irrefl 0
      simp [NormalizeE, hnm]

/-- C8 witness: with any value for the indeterminate read, normalizing the
nonempty all-zero 3-vector in robust mode returns length 0 and the zero
vector. -/
theorem gvector_normalize_guarded_witness :
    NormalizeE Real.sqrt 1 ([0, 0, 0] : List ℝ) true = Except.ok (0, [0, 0, 0]) := by
  have hz : LengthE Real.sqrt 1 ([0, 0, 0] : List ℝ) false = Except.ok 0 := by
    norm_num [LengthE, DotE, Real.sqrt_zero]
  have h := ((gvector_normalize_guarded 1 [0, 0, 0]).2
    (List.cons_ne_nil 0 [0, 0])).2 hz
  simpa using h

/-- C9: `MakeUnit(d)` keeps the tuple size, zeroes every component, sets
component `d` to one exactly when `0 ≤ d < size` (an in-bounds write), and
for out-of-range `d` produces the zero vector. -/
theorem gvector_make_unit_total (v : List ℚ) (d : ℤ) :
    (MakeUnit v d).length = v.length ∧
    (¬ (0 ≤ d ∧ d < (v.length : ℤ)) → MakeUnit v d = v.map (fun _ => 0)) ∧
    ((0 ≤ d ∧ d < (v.length : ℤ)) →
      d.toNat < v.length ∧
      (MakeUnit v d).getD d.toNat 0 = 1 ∧
      ∀ i, i < v.length → i ≠ d.toNat → (MakeUnit v d).getD i 0 = 0) := by
  refine ⟨?_, ?_, ?_⟩
  · simp only [MakeUnit, List.length_map]
    split_ifs <;> simp
  · intro h
    simp only [MakeUnit, List.length_map]
    rw [if_neg h]
  · intro h
    have hdn : d.toNat < v.length := by omega
    have hdnz : d.toNat < (v.map (fun _ => (0 : ℚ))).length := by
      rw [List.length_map]; exact hdn
    refine ⟨hdn, ?_, ?_⟩
    · simp only [MakeUnit, List.length_map]
      rw [if_pos h]
      exact getD_set_self _ _ _ _ hdnz
    · intro i hi hne
      simp only [MakeUnit, List.length_map]
      rw [if_pos h, getD_set_ne _ _ _ _ _ hne]
      exact getD_map_zero v i

/-- C9 witness: on the 2-vector `[5, 7]`, `MakeUnit 1` puts a one in slot 1,
and `MakeUnit (-3)` gives the zero vector. -/
theorem gvector_make_unit_total_witness :
    (MakeUnit ([5, 7] : List ℚ) 1).getD 1 0 = 1
      ∧ MakeUnit ([5, 7] : List ℚ) (-3) = [0, 0] := by
  constructor
  · exact ((gvector_make_unit_total ([5, 7] : List ℚ) 1).2.2 (by decide)).2.1
  · have h := (gvector_make_unit_total ([5, 7] : List ℚ) (-3)).2.1 (by decide)
    simpa using h

/-- C10: `operator+=` is atomic on error: with equal sizes it returns the
componentwise sum, and with mismatched sizes it raises the
`Mismatched sizes.` error with the left operand still in its original
state. -/
theorem gvector_add_assign_atomic (v0 v1 : List ℚ) :
    (v0.length = v1.length →
      addAssignRun v0 v1 = .ok (List.zipWith (· + ·) v0 v1) ∧
      ∀ i, i < v0.length →
        (List.zipWith (· + ·) v0 v1).getD i 0 = v0.getD i 0 + v1.getD i 0) ∧
    (v0.length ≠ v1.length →
      addAssignRun v0 v1 = .error ("Mismatched sizes.", v0)) := by
  constructor
  · intro h
    exact ⟨by simp [addAssignRun, h],
      fun i hi => getD_zipWith_add v0 v1 i hi (h ▸ hi)⟩
  · intro h
    simp [addAssignRun, h]

/-- C10 witness: `[1, 2] += [3, 4]` gives `[4, 6]`; `[1] += [2, 3]` errors
with `[1]` unchanged. -/
theorem gvector_add_assign_atomic_witness :
    addAssignRun ([1, 2] : List ℚ) [3, 4] = .ok [4, 6]
      ∧ addAssignRun ([1] : List ℚ) [2, 3]
          = .error ("Mismatched sizes.", [1]) := by
  constructor
  · have h := ((gvector_add_assign_atomic ([1, 2] : List ℚ) [3, 4]).1 rfl).1
    rw [h]
    norm_num
  · exact (gvector_add_assign_atomic ([1] : List ℚ) [2, 3]).2 (by simp)

end GeometryCollision
